import Mathlib

/-!
Verification of the `deno_ops` binding generator (src/ops/lib.rs).

The Rust code is a procedural macro: it inspects a native function's
signature as a token string and emits the V8 glue code.  The embedding
mirrors that structure in two layers:

* the token-string classifiers (`is_string`, `is_result`, ...) and the
  code-generation bookkeeping (`codegen_args` arity, `map_while` special
  argument scan, `Op.gen` descriptor assembly) are translated directly
  from the source, operating on the `syn` token strings the source
  compares against;
* the behaviour of the *emitted* code (the bodies produced by
  `codegen_v8_sync`, `codegen_v8_async`, `codegen_arg`,
  `codegen_u8_slice`, `codegen_sync_ret`, ...) is given as executable
  semantic functions over a model of the V8 call boundary (argument
  vector of V8 values, per-context op state, return-value slot).

`optimizer.rs` and `fast_call.rs` are not part of the sources; the few
facts needed about them are modelled from the specification and marked
as such in their doc comments.
-/

deriving instance DecidableEq for Except

namespace DenoOps

/-! ### List/character utilities used by the token-string classifiers -/

/-- Boolean prefix test on character lists (used to model Rust
`str::starts_with` and substring search on token strings). -/
def prefL : List Char → List Char → Bool
  | [], _ => true
  | _ :: _, [] => false
  | c :: cs, d :: ds => if c = d then prefL cs ds else false

/-- Boolean substring test (models Rust `str::contains`). -/
def isSubL (pat : List Char) : List Char → Bool
  | [] => pat.isEmpty
  | c :: rest => prefL pat (c :: rest) || isSubL pat rest

/-- The characters strictly before the first occurrence of `pat`
(models Rust `str::find` followed by `split_at`). -/
def splitBeforeSub (pat : List Char) : List Char → Option (List Char)
  | [] => if pat.isEmpty then some [] else none
  | c :: rest =>
    if prefL pat (c :: rest) then some []
    else
      match splitBeforeSub pat rest with
      | some a => some (c :: a)
      | none => none

/-- Models `str::trim_start_matches("-> ")`: repeatedly strip a leading
`-> ` from a token string. -/
def trimArrowsL : List Char → List Char
  | '-' :: '>' :: ' ' :: rest => trimArrowsL rest
  | s => s

/-- Suffix test on character lists. -/
def endsL (s suf : List Char) : Bool := prefL suf.reverse s.reverse

/-- `endsTok s suf`: token string `s` ends with `suf` (models an
end-anchored regex literal). -/
def endsTok (s suf : String) : Bool := endsL s.toList suf.toList

/-- `startsTok s p`: token string `s` starts with `p`. -/
def startsTok (s p : String) : Bool := prefL p.toList s.toList

/-- `containsTok s p`: token string `s` contains `p` (models
`str::contains`). -/
def containsTok (s p : String) : Bool := isSubL p.toList s.toList

/-- Regex `\w`: ASCII word character. -/
def isWordChar (c : Char) : Bool := c.isAlphanum || c = '_'

/-- The apostrophe character, written by code point. -/
def quoteChar : Char := Char.ofNat 39

/-- Split a maximal run of word characters off the front of a
(reversed) character list. -/
def takeWordRev : List Char → List Char × List Char
  | [] => ([], [])
  | c :: rest =>
    if isWordChar c then
      let p := takeWordRev rest
      (c :: p.1, p.2)
    else ([], c :: rest)

/-- Part of the `is_handle_scope` regex: after the reversed string has
matched `> ` and a nonempty word, it must continue with an apostrophe,
a space, `<` and a space.  Returns the remaining (still reversed)
characters. -/
def stripLifetimeRevTail (s : List Char) : Option (List Char) :=
  match takeWordRev s with
  | ([], _) => none
  | (_ :: _, r) =>
    match r with
    | q :: rest =>
      if q = quoteChar then
        match rest with
        | s1 :: rest2 =>
          if s1 = ' ' then
            match rest2 with
            | lt :: rest3 =>
              if lt = '<' then
                match rest3 with
                | s2 :: rest4 => if s2 = ' ' then some rest4 else none
                | [] => none
              else none
            | [] => none
          else none
        | [] => none
      else none
    | [] => none

/-- Models the optional ` < 'lifetime >` tail of the `is_handle_scope`
regex: if the token string ends in ` < 'w+ >`, return the reversed
characters that precede it. -/
def stripLifetimeRev (s : List Char) : Option (List Char) :=
  match s.reverse with
  | [] => none
  | c1 :: rest1 =>
    if c1 = '>' then
      match rest1 with
      | [] => none
      | c2 :: rest2 => if c2 = ' ' then stripLifetimeRevTail rest2 else none
    else none

/-! ### Signature data model

A `syn::FnArg` is embedded by the token strings of its pattern and its
type; `tokens(arg)` stringifies as `pat : ty`.  A return type carries
its leading `-> ` exactly as `tokens(&sig.output)` does (the empty
string is `ReturnType::Default`). -/

structure FnArg where
  pat : String
  ty : String
deriving DecidableEq

/-- `tokens(arg)` for a typed argument: `pat : ty`. -/
def argTokens (a : FnArg) : String := a.pat ++ " : " ++ a.ty

/-! ### Token-string classifiers (translated from src/ops/lib.rs) -/

/-- `is_void`: `tokens(ty).is_empty()`. -/
def is_void (ty : String) : Bool := ty = ""

/-- `is_result`: the token string, after `-> ` is stripped, starts with
`Result <`; or it contains `:: Result <` with no `<` before it
(a `Result` alias such as `io::Result`). -/
def is_result (ty : String) : Bool :=
  if prefL ("Result <".toList) (trimArrowsL ty.toList) then true
  else
    match splitBeforeSub (":: Result <".toList) ty.toList with
    | some a => !(a.contains '<')
    | none => false

/-- `is_string`: `String` (owned, `some false`) or `& str` (borrowed,
`some true`). -/
def is_string (ty : String) : Option Bool :=
  if ty = "String" then some false
  else if ty = "& str" then some true
  else none

/-- `is_option_string`: exactly `Option < String >`. -/
def is_option_string (ty : String) : Bool := ty = "Option < String >"

/-- `is_cow_str`: starts with `Cow <` and ends with `str >`. -/
def is_cow_str (ty : String) : Bool :=
  startsTok ty "Cow <" && endsTok ty "str >"

inductive SliceType where
  | U8
  | U8Mut
  | U32Mut
deriving DecidableEq

def is_u8_slice (ty : String) : Bool := ty = "& [u8]"

def is_u8_slice_mut (ty : String) : Bool := ty = "& mut [u8]"

def is_u32_slice_mut (ty : String) : Bool := ty = "& mut [u32]"

/-- `is_ref_slice`: classify byte/word slice parameter types. -/
def is_ref_slice (ty : String) : Option SliceType :=
  if is_u8_slice ty then some .U8
  else if is_u8_slice_mut ty then some .U8Mut
  else if is_u32_slice_mut ty then some .U32Mut
  else none

def is_ptr_u8 (ty : String) : Bool := ty = "* const u8"

def is_optional_fast_callback_option (ty : String) : Bool :=
  containsTok ty "Option < & mut FastApiCallbackOptions"

def is_optional_wasm_memory (ty : String) : Bool :=
  containsTok ty "Option < & mut [u8]"

/-- Regex `: (?:deno_core :: )?ResourceId$`. -/
def is_resource_id (s : String) : Bool :=
  endsTok s ": ResourceId" || endsTok s ": deno_core :: ResourceId"

/-- `is_u32_rv`: the return type can use the `rv.set_uint32` fast path. -/
def is_u32_rv (ty : String) : Bool :=
  (ty = "u32" || ty = "u8" || ty = "u16") || is_resource_id ty

/-- `is_u32_rv_result`: `Result<u32/u8/u16, Err>` (or resource id). -/
def is_u32_rv_result (ty : String) : Bool :=
  is_result ty &&
    (containsTok ty "Result < u32" || containsTok ty "Result < u8" ||
      containsTok ty "Result < u16" || is_resource_id ty)

/-- `is_unit_result`: `Result<(), Err>`. -/
def is_unit_result (ty : String) : Bool :=
  is_result ty && containsTok ty "Result < ()"

/-- Regex `: & mut (?:deno_core :: )?OpState$` applied to `tokens(arg)`. -/
def is_mut_ref_opstate (a : FnArg) : Bool :=
  endsTok (argTokens a) ": & mut OpState" ||
    endsTok (argTokens a) ": & mut deno_core :: OpState"

/-- Regex `: Rc < RefCell < (?:deno_core :: )?OpState > >$`. -/
def is_rc_refcell_opstate (a : FnArg) : Bool :=
  endsTok (argTokens a) ": Rc < RefCell < OpState > >" ||
    endsTok (argTokens a) ": Rc < RefCell < deno_core :: OpState > >"

/-- Regex `: & mut (?:deno_core :: )?v8 :: HandleScope(?: < 'w+ >)?$`. -/
def is_handle_scope (a : FnArg) : Bool :=
  endsTok (argTokens a) ": & mut v8 :: HandleScope" ||
  endsTok (argTokens a) ": & mut deno_core :: v8 :: HandleScope" ||
  (match stripLifetimeRev (argTokens a).toList with
   | some uRev =>
     prefL (": & mut v8 :: HandleScope".toList.reverse) uRev ||
       prefL (": & mut deno_core :: v8 :: HandleScope".toList.reverse) uRev
   | none => false)

/-- `is_future`: the return type mentions `impl Future < Output =`. -/
def is_future (ty : String) : Bool :=
  containsTok ty "impl Future < Output ="

/-! ### V8 call-boundary model

Arguments arrive as an indexed vector of V8 values.  An `ArrayBuffer`
carries its reported byte length and its backing region (`none` models
a null data pointer); an `ArrayBufferView` carries its kind, byte
offset, byte length and (possibly absent) backing buffer. -/

structure BufData where
  byteLength : Nat
  data : Option (List Nat)
deriving DecidableEq

inductive ViewKind where
  | uint8Array
  | uint32Array
  | otherView
deriving DecidableEq

structure ViewData where
  kind : ViewKind
  byteOffset : Nat
  byteLength : Nat
  buffer : Option BufData
deriving DecidableEq

inductive V8Value where
  | vstr (s : String)
  | vint (n : Int)
  | vbuf (b : BufData)
  | vview (w : ViewData)
  | vundef
deriving DecidableEq

/-- The value a generated `let arg_i = ...;` binds for the native call. -/
inductive DecodedArg where
  | unitArg
  | noneArg
  | strArg (s : String)
  | cowArg (s : String)
  | optStrArg (s : Option String)
  | bytesArg (bs : List Nat)
  | wordsArg (ws : List Nat)
  | ptrArg
  | serdeArg (v : String)
deriving DecidableEq

/-- Group bytes into little-endian 32-bit words (the memory view taken
by `from_raw_parts_mut(_ as *mut u32, len / 4)`). -/
def bytesToWords : List Nat → List Nat
  | b0 :: b1 :: b2 :: b3 :: rest =>
    (b0 + 256 * b1 + 65536 * b2 + 16777216 * b3) :: bytesToWords rest
  | _ => []

/-- Behaviour of the block emitted by `codegen_u8_slice` for one
argument value: a plain `ArrayBuffer` yields the whole backing region
(`from_raw_parts_mut(store, byte_length)`); an `ArrayBufferView` yields
`(base + byte_offset, byte_length)`; anything else throws
`Expected ArrayBufferView at position idx`. -/
def codegen_u8_slice (idx : Nat) (v : V8Value) : Except String (List Nat) :=
  match v with
  | .vbuf b =>
    match b.data with
    | some d => .ok (d.take b.byteLength)
    | none => .ok []
  | .vview w =>
    match w.buffer with
    | some b =>
      match b.data with
      | some d => .ok ((d.drop w.byteOffset).take w.byteLength)
      | none => .ok []
    | none => .error ("Expected ArrayBufferView at position " ++ toString idx)
  | _ => .error ("Expected ArrayBufferView at position " ++ toString idx)

/-- Behaviour of the block emitted by `codegen_u32_mut_slice`: only a
`Uint32Array` view is accepted; the slice covers `len / 4` words from
`base + offset`. -/
def codegen_u32_mut_slice (idx : Nat) (v : V8Value) : Except String (List Nat) :=
  match v with
  | .vview w =>
    if w.kind = .uint32Array then
      match w.buffer with
      | some b =>
        match b.data with
        | some d =>
          .ok (bytesToWords ((d.drop w.byteOffset).take (4 * (w.byteLength / 4))))
        | none => .ok []
      | none => .error ("Expected Uint32Array at position " ++ toString idx)
    else .error ("Expected Uint32Array at position " ++ toString idx)
  | _ => .error ("Expected Uint32Array at position " ++ toString idx)

/-- Behaviour of the block emitted by `codegen_u8_ptr` (pointer value
itself is not modelled, only success/throw). -/
def codegen_u8_ptr (idx : Nat) (v : V8Value) : Except String Unit :=
  match v with
  | .vbuf _ => .ok ()
  | .vview w =>
    match w.buffer with
    | some _ => .ok ()
    | none => .error ("Expected ArrayBufferView at position " ++ toString idx)
  | _ => .error ("Expected ArrayBufferView at position " ++ toString idx)

/-- Behaviour of the declaration emitted by `codegen_arg` for one
argument, in the source's branch order: fast-callback-option / wasm
memory placeholders, wildcard patterns, `String`/`& str`, `Cow<str>`,
`Option<String>`, slices, `* const u8`, and finally the generic
`serde_v8::from_v8` decode (`serde` is the marshaling library
collaborator). -/
def codegen_arg (serde : V8Value → Except String String) (a : FnArg)
    (idx : Nat) (args : Nat → V8Value) : Except String DecodedArg :=
  if is_optional_fast_callback_option a.ty || is_optional_wasm_memory a.ty then
    .ok .noneArg
  else if a.pat = "_" then .ok .unitArg
  else
    match is_string a.ty with
    | some _ =>
      match args idx with
      | .vstr s => .ok (.strArg s)
      | _ => .error ("Expected string at position " ++ toString idx)
    | none =>
      if is_cow_str a.ty then
        match args idx with
        | .vstr s => .ok (.cowArg s)
        | _ => .error ("Expected string at position " ++ toString idx)
      else if is_option_string a.ty then
        .ok (.optStrArg (match args idx with | .vstr s => some s | _ => none))
      else
        match is_ref_slice a.ty with
        | some .U32Mut => (codegen_u32_mut_slice idx (args idx)).map .wordsArg
        | some _ => (codegen_u8_slice idx (args idx)).map .bytesArg
        | none =>
          if is_ptr_u8 a.ty then
            (codegen_u8_ptr idx (args idx)).map (fun _ => .ptrArg)
          else
            match serde (args idx) with
            | .ok v => .ok (.serdeArg v)
            | .error err =>
              .error ("Error parsing args at position " ++ toString idx ++ ": " ++ err)

/-- Behaviour of the sequence of declarations emitted by
`codegen_args` over the non-special parameters: each `let` runs in
order and an error returns from the whole call before later arguments
are decoded.  `v8_i0` is the V8 index of the first generic argument. -/
def marshalList (serde : V8Value → Except String String) (args : Nat → V8Value)
    (v8_i0 : Nat) : List FnArg → Nat → Except String (List DecodedArg)
  | [], _ => .ok []
  | a :: rest, i =>
    match codegen_arg serde a (v8_i0 + i) args with
    | .error e => .error e
    | .ok d => (marshalList serde args v8_i0 rest (i + 1)).map (d :: ·)

/-! ### Special (leading) arguments -/

/-- What the generated glue binds for a recognized special argument. -/
inductive SpecialBinding where
  | scopeBinding
  | opstateCloneBinding
  | opstateBorrowMutBinding
  | compileErrorBinding (msg : String)
deriving DecidableEq

/-- `scope_arg`. -/
def scope_arg (a : FnArg) : Option SpecialBinding :=
  if is_handle_scope a then some .scopeBinding else none

/-- `opstate_arg` (sync ops). -/
def opstate_arg (a : FnArg) : Option SpecialBinding :=
  if is_rc_refcell_opstate a then some .opstateCloneBinding
  else if is_mut_ref_opstate a then some .opstateBorrowMutBinding
  else none

/-- `rc_refcell_opstate_arg` (async ops): an exclusive `&mut OpState`
parameter expands to a `compile_error!`. -/
def rc_refcell_opstate_arg (a : FnArg) : Option SpecialBinding :=
  if is_rc_refcell_opstate a then some .opstateCloneBinding
  else if is_mut_ref_opstate a then
    some (.compileErrorBinding "mutable opstate is not supported in async ops")
  else none

/-- `Iterator::map_while`: map a leading run while `f` returns `some`. -/
def mapWhileSome (f : α → Option β) : List α → List β
  | [] => []
  | a :: rest =>
    match f a with
    | some b => b :: mapWhileSome f rest
    | none => []

/-- The `map_while` closure of `codegen_v8_sync`. -/
def sync_special (is_v8 : Bool) (a : FnArg) : Option SpecialBinding :=
  match (if is_v8 then scope_arg a else none) with
  | some b => some b
  | none => opstate_arg a

/-- The `map_while` closure of `codegen_v8_async`. -/
def async_special (is_v8 : Bool) (a : FnArg) : Option SpecialBinding :=
  match (if is_v8 then scope_arg a else none) with
  | some b => some b
  | none => rc_refcell_opstate_arg a

/-! ### Per-context op state and return encoding -/

/-- The per-call-context `OpState` fields the generated code touches:
the single-slot stored fast-op error and the process-wide
error-classification hook. -/
structure OpStateM where
  last_fast_op_error : Option String
  get_error_class_fn : String → String

structure OpCtx where
  id : Nat
  state : OpStateM

/-- The native function's return value.  `plain` embeds a direct value,
`resultVal` a fallible wrapper. -/
inductive RetPayload where
  | pUnit
  | pNum (n : Nat)
  | pGeneric (g : String)
deriving DecidableEq

inductive RetVal where
  | plain (p : RetPayload)
  | resultVal (r : Except String RetPayload)
deriving DecidableEq

/-- `result as u32` (only numeric payloads arise in well-typed
generated code; other payloads default to 0). -/
def RetPayload.asU32 : RetPayload → Nat
  | .pNum n => n
  | _ => 0

/-- The value handed to `serde_v8::to_v8` in the generic return path. -/
def RetPayload.asGeneric : RetPayload → String
  | .pGeneric g => g
  | .pNum n => toString n
  | .pUnit => "null"

def RetVal.forceU32 : RetVal → Nat
  | .plain p => p.asU32
  | .resultVal _ => 0

def RetVal.forcePlain : RetVal → RetPayload
  | .plain p => p
  | .resultVal _ => .pUnit

/-- An exception the generated code throws: a
`throw_type_error(scope, msg)` or the exception built by
`to_v8_error(scope, get_error_class_fn, err)`. -/
inductive Thrown where
  | typeError (msg : String)
  | exceptionThrown (cls : String) (err : String)
deriving DecidableEq

/-- Effect of the return step on `rv` and the scope. -/
structure RetEffect where
  rvSetU32 : Option Nat
  rvSetV8 : Option String
  thrown : Option Thrown
deriving DecidableEq

/-- The `ok_block` of `codegen_sync_ret`: nothing for
`Result<(), Err>`, `rv.set_uint32` for `Result<u32/u8/u16, Err>`, and
otherwise the full `serde_v8::to_v8` encode, throwing
`Error serializing return: ...` on encode failure. -/
def sync_ok_block (output : String) (toV8 : String → Except String String)
    (p : RetPayload) : RetEffect :=
  if is_unit_result output then ⟨none, none, none⟩
  else if is_u32_rv_result output then ⟨some p.asU32, none, none⟩
  else
    match toV8 p.asGeneric with
    | .ok ret => ⟨none, some ret, none⟩
    | .error err => ⟨none, none, some (.typeError ("Error serializing return: " ++ err))⟩

/-- Behaviour of the return step emitted by `codegen_sync_ret`, in the
source's branch order: void → nothing; `is_u32_rv` → direct
`set_uint32`; then the ok-block, wrapped for `Result` return types in a
match whose `Err` arm throws the exception built via the
error-classification hook. -/
def codegen_sync_ret (output : String) (toV8 : String → Except String String)
    (getErrCls : String → String) (result : RetVal) : RetEffect :=
  if is_void output then ⟨none, none, none⟩
  else if is_u32_rv output then ⟨some result.forceU32, none, none⟩
  else if is_result output then
    match result with
    | .resultVal (.ok p) => sync_ok_block output toV8 p
    | .resultVal (.error err) =>
      ⟨none, none, some (.exceptionThrown (getErrCls err) err)⟩
    | .plain p => sync_ok_block output toV8 p
  else sync_ok_block output toV8 result.forcePlain

/-! ### Generated sync body (`codegen_v8_sync`) -/

/-- Observable outcome of one invocation of the generated sync
`v8_func`. -/
structure SyncOutcome where
  thrown : Option Thrown
  rvU32 : Option Nat
  rvV8 : Option String
  decodedArgs : Option (List DecodedArg)
  nativeCalled : Bool
  trackedSync : Bool
  finalLastError : Option String
deriving DecidableEq

/-- The part of the generated sync body after the fast-error handler:
argument declarations (an argument error throws a type error and
returns before the call), the native call, the `track_sync` telemetry
event, then the return step. -/
def v8_func_sync_main (is_v8 : Bool) (inputs : List FnArg) (output : String)
    (serde : V8Value → Except String String) (toV8 : String → Except String String)
    (ctx : OpCtx) (call : List SpecialBinding → List DecodedArg → RetVal)
    (args : Nat → V8Value) : SyncOutcome :=
  let special := mapWhileSome (sync_special is_v8) inputs
  match marshalList serde args 0 (inputs.drop special.length) 0 with
  | .error msg =>
    ⟨some (.typeError msg), none, none, none, false, false,
      ctx.state.last_fast_op_error⟩
  | .ok decoded =>
    let result := call special decoded
    let eff := codegen_sync_ret output toV8 ctx.state.get_error_class_fn result
    ⟨eff.thrown, eff.rvSetU32, eff.rvSetV8, some decoded, true, true,
      ctx.state.last_fast_op_error⟩

/-- Behaviour of the body emitted by `codegen_v8_sync`.  When
`has_fallible_fast_call` holds, the body begins with the fast-error
handler: if `last_fast_op_error` holds an error it is taken, converted
with `to_v8_error` and thrown, and the call returns at once. -/
def v8_func_sync (is_v8 has_fallible_fast_call : Bool) (inputs : List FnArg)
    (output : String) (serde : V8Value → Except String String)
    (toV8 : String → Except String String) (ctx : OpCtx)
    (call : List SpecialBinding → List DecodedArg → RetVal)
    (args : Nat → V8Value) : SyncOutcome :=
  if has_fallible_fast_call then
    match ctx.state.last_fast_op_error with
    | some err =>
      ⟨some (.exceptionThrown (ctx.state.get_error_class_fn err) err),
        none, none, none, false, false, none⟩
    | none => v8_func_sync_main is_v8 inputs output serde toV8 ctx call args
  else v8_func_sync_main is_v8 inputs output serde toV8 ctx call args

/-! ### Generated async body (`codegen_v8_async`) -/

/-- Result value delivered for an async op (`to_op_result`). -/
inductive OpResult where
  | opValue (v : String)
  | opErrorRes (cls : String) (e : String)
deriving DecidableEq

def to_op_result (getCls : String → String) : Except String String → OpResult
  | .ok v => .opValue v
  | .error e => .opErrorRes (getCls e) e

/-- The shape and behaviour of the native function of an async op:
an `async fn` whose future resolves to a `Result` or a plain value, or
a non-async `fn` returning a plain future, or a non-async `fn`
returning `Result<impl Future<...>, Err>` (which may fail before
producing the future). -/
inductive NativeAsyncCall where
  | asyncResFn (fut : Except String String)
  | asyncPlainFn (v : String)
  | plainFutFn (v : String)
  | resFutFn (r : Except String (Except String String))
deriving DecidableEq

/-- The tuple handed to `queue_async_op`'s future on completion,
together with whether the native future was actually awaited and the
`deferred` flag passed to `queue_async_op`. -/
structure QueuedTask where
  promiseId : Int
  opId : Nat
  result : OpResult
  awaitedFuture : Bool
  deferredArg : Bool
deriving DecidableEq

/-- The async block built from `pre_result`, `result_fut` and
`result_wrapper`: what triple the queued future yields, by the
asyncness/`is_result` shape of the op.  For a non-async fn returning
`Result<Future, Err>`, an `Err` short-circuits (`return`) without
awaiting any future.  A shape mismatch between the signature booleans
and the supplied call cannot arise from the generator and yields no
task. -/
def asyncTask (asyncness isRes : Bool) (getCls : String → String) (pid : Int)
    (oid : Nat) (deferred : Bool) : NativeAsyncCall → Option QueuedTask
  | .asyncResFn fut =>
    if asyncness && isRes then
      some ⟨pid, oid, to_op_result getCls fut, true, deferred⟩
    else none
  | .asyncPlainFn v =>
    if asyncness && !isRes then
      some ⟨pid, oid, to_op_result getCls (.ok v), true, deferred⟩
    else none
  | .plainFutFn v =>
    if !asyncness && !isRes then
      some ⟨pid, oid, to_op_result getCls (.ok v), true, deferred⟩
    else none
  | .resFutFn r =>
    if !asyncness && isRes then
      match r with
      | .ok fut => some ⟨pid, oid, to_op_result getCls fut, true, deferred⟩
      | .error e => some ⟨pid, oid, to_op_result getCls (.error e), false, deferred⟩
    else none

/-- Modelled collaborator detail: the display text of the conversion
error when argument 0 is not a V8 integer. -/
def v8DataErrText : String := "expected v8::Integer"

/-- Observable outcome of one invocation of the generated async
`v8_func`. -/
structure AsyncOutcome where
  thrown : Option String
  decodedArgs : Option (List DecodedArg)
  trackedAsync : Bool
  queued : Option QueuedTask
deriving DecidableEq

/-- Behaviour of the body emitted by `codegen_v8_async`, in the
source's order: read argument 0 as the promise id and throw
`invalid promise id: ...` if it is not an integer (returning before any
argument is decoded); decode the generic arguments starting at V8
index 1; register the async-call telemetry event and capture the
error-classification hook; invoke/schedule the native function and
queue the completion triple `(promise_id, op_id, result)`. -/
def v8_func_async (is_v8 asyncness deferred : Bool) (inputs : List FnArg)
    (output : String) (serde : V8Value → Except String String) (ctx : OpCtx)
    (call : List SpecialBinding → List DecodedArg → NativeAsyncCall)
    (args : Nat → V8Value) : AsyncOutcome :=
  let special := mapWhileSome (async_special is_v8) inputs
  match args 0 with
  | .vint pid =>
    match marshalList serde args 1 (inputs.drop special.length) 0 with
    | .error msg => ⟨some msg, none, false, none⟩
    | .ok decoded =>
      ⟨none, some decoded, true,
        asyncTask asyncness (is_result output) ctx.state.get_error_class_fn
          pid ctx.id deferred (call special decoded)⟩
  | _ => ⟨some ("invalid promise id: " ++ v8DataErrText), none, false, none⟩

/-! ### Descriptor assembly (`Op::gen`, `decl`) -/

inductive BailoutReason where
  | MustBeSingleSegment
  | FastUnsupportedParamType
deriving DecidableEq

structure Optimizer where
  fast_compatible : Bool
  returns_result : Bool
deriving DecidableEq

/-- Modelled from the spec: `optimizer.rs` is not in src/.  §4.2:
analysis bails with `MustBeSingleSegment` when a parameter's type path
is not a single unqualified segment, with `FastUnsupportedParamType`
when a parameter kind is outside the fast-path subset (at least
copy-on-write and optional strings), and records whether the return
type is a fallible wrapper. -/
def analyze (inputs : List FnArg) (output : String) :
    Optimizer × Option BailoutReason :=
  let opt : Optimizer := ⟨true, is_result output⟩
  match inputs.find? (fun a => containsTok a.ty "::") with
  | some _ => (opt, some .MustBeSingleSegment)
  | none =>
    match inputs.find? (fun a => is_cow_str a.ty || is_option_string a.ty) with
    | some _ => (opt, some .FastUnsupportedParamType)
    | none => (opt, none)

/-- Modelled from the spec: `fast_call.rs` is not in src/.  §4.2/§4.3:
on bailout the assembler proceeds with no fast entry point; otherwise
an active fast declaration is produced. -/
structure FastImplItems where
  decl : Option Unit
  active : Bool
deriving DecidableEq

def fast_call_generate (opt : Optimizer) : FastImplItems :=
  if opt.fast_compatible then ⟨some (), true⟩ else ⟨none, false⟩

/-- The generic entry point stored in the descriptor: the generated
body, whose behaviour is `v8_func_sync` / `v8_func_async`. -/
inductive V8Fn where
  | syncFn (is_v8 : Bool) (has_fallible_fast_call : Bool) (inputs : List FnArg)
      (output : String)
  | asyncFn (is_v8 : Bool) (asyncness : Bool) (deferred : Bool)
      (inputs : List FnArg) (output : String)
deriving DecidableEq

/-- `codegen_v8_sync`: the generated body and the v8 argument count
(`codegen_args` counts the parameters after the special-argument
prefix). -/
def codegen_v8_sync (is_v8 has_fallible_fast_call : Bool) (inputs : List FnArg)
    (output : String) : V8Fn × Nat :=
  let special := mapWhileSome (sync_special is_v8) inputs
  (.syncFn is_v8 has_fallible_fast_call inputs output,
    (inputs.drop special.length).length)

/-- `codegen_v8_async`: the generated body and the v8 argument count. -/
def codegen_v8_async (is_v8 asyncness deferred : Bool) (inputs : List FnArg)
    (output : String) : V8Fn × Nat :=
  let special := mapWhileSome (async_special is_v8) inputs
  (.asyncFn is_v8 asyncness deferred inputs output,
    (inputs.drop special.length).length)

/-- The `#[op]` attributes. -/
structure Attributes where
  is_v8 : Bool
  is_unstable : Bool
  deferred : Bool
  must_be_fast : Bool
  is_wasm : Bool
deriving DecidableEq

/-- The annotated function: name, `async` keyword, parameters, return
type tokens. -/
structure OpSig where
  name : String
  asyncness : Bool
  inputs : List FnArg
  output : String
deriving DecidableEq

/-- `Op::new`: an op is async when it is an `async fn` or returns a
`Future`. -/
def Op.is_async (s : OpSig) : Bool := s.asyncness || is_future s.output

/-- The emitted `OpDecl` descriptor. -/
structure OpDecl where
  name : String
  v8_fn_ptr : V8Fn
  enabled : Bool
  fast_fn : Option Unit
  is_async : Bool
  is_unstable : Bool
  is_v8 : Bool
  argc : Nat
deriving DecidableEq

/-- `Op::gen`: run the optimizer, clearing fast compatibility on the
two bailout reasons; generate the fast-call items; compute
`has_fallible_fast_call`; generate the async or sync body; assemble the
descriptor. -/
def Op.gen (attrs : Attributes) (s : OpSig) : OpDecl :=
  let ar := analyze s.inputs s.output
  let opt :=
    match ar.2 with
    | some .MustBeSingleSegment => { ar.1 with fast_compatible := false }
    | some .FastUnsupportedParamType => { ar.1 with fast_compatible := false }
    | none => ar.1
  let fi := fast_call_generate opt
  let hffc := fi.active && opt.returns_result
  let body :=
    if Op.is_async s then
      codegen_v8_async attrs.is_v8 s.asyncness attrs.deferred s.inputs s.output
    else codegen_v8_sync attrs.is_v8 hffc s.inputs s.output
  ⟨s.name, body.1, true, fi.decl, Op.is_async s, attrs.is_unstable,
    attrs.is_v8, body.2⟩

/-! ### Helper lemmas -/

theorem mapWhileSome_length (f : α → Option β) (l : List α) :
    (mapWhileSome f l).length = (l.takeWhile fun a => (f a).isSome).length := by
  induction l with
  | nil => rfl
  | cons a rest ih =>
    simp only [mapWhileSome, List.takeWhile_cons]
    cases h : f a <;> simp [h, ih]

theorem mapWhileSome_eq_filterMap (f : α → Option β) (l : List α) :
    mapWhileSome f l = (l.takeWhile fun a => (f a).isSome).filterMap f := by
  induction l with
  | nil => rfl
  | cons a rest ih =>
    simp only [mapWhileSome, List.takeWhile_cons]
    cases h : f a <;> simp [h, ih, List.filterMap_cons]

theorem sync_special_isSome (is_v8 : Bool) (a : FnArg) :
    (sync_special is_v8 a).isSome =
      ((is_v8 && is_handle_scope a) || is_rc_refcell_opstate a ||
        is_mut_ref_opstate a) := by
  cases hv : is_v8 <;>
    cases h1 : is_handle_scope a <;>
    cases h2 : is_rc_refcell_opstate a <;>
    cases h3 : is_mut_ref_opstate a <;>
    simp [sync_special, scope_arg, opstate_arg, h1, h2, h3]

theorem async_special_isSome (is_v8 : Bool) (a : FnArg) :
    (async_special is_v8 a).isSome =
      ((is_v8 && is_handle_scope a) || is_rc_refcell_opstate a ||
        is_mut_ref_opstate a) := by
  cases hv : is_v8 <;>
    cases h1 : is_handle_scope a <;>
    cases h2 : is_rc_refcell_opstate a <;>
    cases h3 : is_mut_ref_opstate a <;>
    simp [async_special, scope_arg, rc_refcell_opstate_arg, h1, h2, h3]

theorem is_void_eq_false_of_is_result {o : String} (h : is_result o = true) :
    is_void o = false := by
  cases hv : is_void o with
  | false => rfl
  | true =>
    have ho : o = "" := by simpa [is_void] using hv
    rw [ho] at h
    exact absurd h (by decide)

theorem prefL_head_some {xs l : List Char} {c : Char} (h : prefL xs l = true)
    (hc : xs.head? = some c) : l.head? = some c := by
  cases xs with
  | nil => simp at hc
  | cons x xs =>
    cases l with
    | nil => simp [prefL] at h
    | cons d ds =>
      simp only [List.head?_cons, Option.some.injEq] at hc ⊢
      simp only [prefL] at h
      by_cases hxd : x = d
      · rw [← hxd, hc]
      · rw [if_neg hxd] at h; exact absurd h (by simp)

theorem prefL_trans_agree :
    ∀ (xs ys l : List Char), prefL xs l = true → prefL ys l = true →
      xs.length ≤ ys.length → prefL xs ys = true
  | [], _, _, _, _, _ => rfl
  | x :: xs, [], _, _, _, hlen => by simp at hlen
  | _ :: _, _ :: _, [], hx, _, _ => by simp [prefL] at hx
  | x :: xs, y :: ys, c :: l, hx, hy, hlen => by
    simp only [prefL] at hx hy ⊢
    by_cases hxc : x = c
    · by_cases hyc : y = c
      · rw [if_pos hxc] at hx
        rw [if_pos hyc] at hy
        rw [if_pos (hxc.trans hyc.symm)]
        exact prefL_trans_agree xs ys l hx hy (by simpa using hlen)
      · rw [if_neg hyc] at hy; exact absurd hy (by simp)
    · rw [if_neg hxc] at hx; exact absurd hx (by simp)

theorem endsTok_incompat (t x y : String)
    (hxy : prefL x.toList.reverse y.toList.reverse = false)
    (hyx : prefL y.toList.reverse x.toList.reverse = false) :
    ¬(endsTok t x = true ∧ endsTok t y = true) := by
  rintro ⟨hx, hy⟩
  simp only [endsTok, endsL] at hx hy
  rcases Nat.le_total x.toList.reverse.length y.toList.reverse.length with h | h
  · rw [prefL_trans_agree _ _ _ hx hy h] at hxy; exact absurd hxy (by simp)
  · rw [prefL_trans_agree _ _ _ hy hx h] at hyx; exact absurd hyx (by simp)

theorem endsTok_false_of (t x y : String) (hx : endsTok t x = true)
    (hxy : prefL x.toList.reverse y.toList.reverse = false)
    (hyx : prefL y.toList.reverse x.toList.reverse = false) :
    endsTok t y = false := by
  cases hy : endsTok t y with
  | false => rfl
  | true => exact absurd ⟨hx, hy⟩ (endsTok_incompat t x y hxy hyx)

/-- A `&mut OpState` argument never also matches the
`Rc<RefCell<OpState>>` regex (the two end-anchored patterns are
incompatible). -/
theorem mut_ref_not_rc {a : FnArg} (h : is_mut_ref_opstate a = true) :
    is_rc_refcell_opstate a = false := by
  simp only [is_mut_ref_opstate, Bool.or_eq_true] at h
  have h1 : endsTok (argTokens a) ": Rc < RefCell < OpState > >" = false := by
    cases h with
    | inl hm => exact endsTok_false_of _ _ _ hm (by decide) (by decide)
    | inr hm => exact endsTok_false_of _ _ _ hm (by decide) (by decide)
  have h2 : endsTok (argTokens a)
      ": Rc < RefCell < deno_core :: OpState > >" = false := by
    cases h with
    | inl hm => exact endsTok_false_of _ _ _ hm (by decide) (by decide)
    | inr hm => exact endsTok_false_of _ _ _ hm (by decide) (by decide)
  simp [is_rc_refcell_opstate, h1, h2]

/-- The lifetime-stripping step fails whenever the reversed token
string does not start with `>`. -/
theorem stripLifetimeRev_eq_none {s : List Char}
    (h : s.reverse.head? = some 'e') : stripLifetimeRev s = none := by
  unfold stripLifetimeRev
  rcases hrev : s.reverse with _ | ⟨c0, tl⟩
  · simp only [hrev] at h
    simp at h
  · rw [hrev] at h
    simp only [List.head?_cons, Option.some.injEq] at h
    rw [h]
    simp

/-- A `&mut OpState` argument never also matches the handle-scope
regex. -/
theorem mut_ref_not_handle_scope {a : FnArg} (h : is_mut_ref_opstate a = true) :
    is_handle_scope a = false := by
  simp only [is_mut_ref_opstate, Bool.or_eq_true] at h
  have hhead : ((argTokens a).toList.reverse).head? = some 'e' := by
    cases h with
    | inl hm =>
      simp only [endsTok, endsL] at hm
      exact prefL_head_some hm (by decide)
    | inr hm =>
      simp only [endsTok, endsL] at hm
      exact prefL_head_some hm (by decide)
  have hstrip : stripLifetimeRev (argTokens a).data = none :=
    stripLifetimeRev_eq_none hhead
  have hb1 : endsTok (argTokens a) ": & mut v8 :: HandleScope" = false := by
    cases h with
    | inl hm => exact endsTok_false_of _ _ _ hm (by decide) (by decide)
    | inr hm => exact endsTok_false_of _ _ _ hm (by decide) (by decide)
  have hb2 : endsTok (argTokens a)
      ": & mut deno_core :: v8 :: HandleScope" = false := by
    cases h with
    | inl hm => exact endsTok_false_of _ _ _ hm (by decide) (by decide)
    | inr hm => exact endsTok_false_of _ _ _ hm (by decide) (by decide)
  simp [is_handle_scope, hb1, hb2, hstrip, String.toList]

/-- The leading special-argument scan never passes an element on which
the predicate fails: the prefix taken is bounded by any such element's
position. -/
theorem takeWhile_append_cons_le {p : α → Bool} (x : α) (hx : p x = false) :
    ∀ (l r : List α), ((l ++ x :: r).takeWhile p).length ≤ l.length
  | [], r => by simp [List.takeWhile_cons, hx]
  | a :: as, r => by
    simp only [List.cons_append, List.takeWhile_cons]
    cases hpa : p a
    · simp
    · simpa using Nat.succ_le_succ (takeWhile_append_cons_le x hx as r)

theorem codegen_v8_sync_argc (v hf : Bool) (inputs : List FnArg) (o : String) :
    (codegen_v8_sync v hf inputs o).2 =
      inputs.length -
        (inputs.takeWhile fun a =>
          (v && is_handle_scope a) || is_rc_refcell_opstate a ||
            is_mut_ref_opstate a).length := by
  simp only [codegen_v8_sync]
  rw [List.length_drop, mapWhileSome_length]
  have hp : (fun a => (sync_special v a).isSome) =
      fun a => (v && is_handle_scope a) || is_rc_refcell_opstate a ||
        is_mut_ref_opstate a := funext fun a => sync_special_isSome v a
  rw [hp]

theorem codegen_v8_async_argc (v an df : Bool) (inputs : List FnArg)
    (o : String) :
    (codegen_v8_async v an df inputs o).2 =
      inputs.length -
        (inputs.takeWhile fun a =>
          (v && is_handle_scope a) || is_rc_refcell_opstate a ||
            is_mut_ref_opstate a).length := by
  simp only [codegen_v8_async]
  rw [List.length_drop, mapWhileSome_length]
  have hp : (fun a => (async_special v a).isSome) =
      fun a => (v && is_handle_scope a) || is_rc_refcell_opstate a ||
        is_mut_ref_opstate a := funext fun a => async_special_isSome v a
  rw [hp]

/-! ### Claim theorems -/

/-- C1: for every sync op generated with an active fallible fast path
(`has_fallible_fast_call`), the generated generic entry point checks
the single-slot stored fast-op error at the very start: if an error is
present it is taken (the slot is cleared), converted to an exception
via the error-classification hook, thrown, and the call returns at once
— no argument is decoded, the native function is not invoked, no
telemetry is tracked and no return value is set, whatever the
arguments, native function or marshaling library are. -/
theorem C1_fast_error_checked_first (is_v8 : Bool) (inputs : List FnArg)
    (output : String) (serde : V8Value → Except String String)
    (toV8 : String → Except String String) (ctx : OpCtx)
    (call : List SpecialBinding → List DecodedArg → RetVal)
    (args : Nat → V8Value) (err : String)
    (herr : ctx.state.last_fast_op_error = some err) :
    v8_func_sync is_v8 true inputs output serde toV8 ctx call args =
      ⟨some (.exceptionThrown (ctx.state.get_error_class_fn err) err),
        none, none, none, false, false, none⟩ := by
  simp [v8_func_sync, herr]

theorem C1_fast_error_checked_first_witness :
    v8_func_sync false true [] "" (fun _ => .ok "") (fun _ => .ok "")
        ⟨7, ⟨some "boom", fun _ => "Error"⟩⟩ (fun _ _ => .plain .pUnit)
        (fun _ => .vundef) =
      ⟨some (.exceptionThrown "Error" "boom"), none, none, none, false, false,
        none⟩ :=
  C1_fast_error_checked_first false [] "" (fun _ => .ok "") (fun _ => .ok "")
    ⟨7, ⟨some "boom", fun _ => "Error"⟩⟩ (fun _ _ => .plain .pUnit)
    (fun _ => .vundef) "boom" rfl

/-- C2: for every op, the argc recorded in the emitted descriptor
equals the number of declared parameters minus the leading
special-argument parameters consumed by the `map_while` prefix scan
(scope handles only when `is_v8` is set, plus shared/exclusive state
handles), regardless of the optimizer/fast-path outcome; and the spec's
example `fn(scope, state, a: String, b: &[u8])` (with `is_v8`) yields
argc 2. -/
theorem C2_argc_counts_only_generic_params (attrs : Attributes) (s : OpSig) :
    (Op.gen attrs s).argc =
      s.inputs.length -
        (s.inputs.takeWhile fun a =>
          (attrs.is_v8 && is_handle_scope a) || is_rc_refcell_opstate a ||
            is_mut_ref_opstate a).length ∧
    (Op.gen ⟨true, false, false, false, false⟩
        ⟨"op_example", false,
          [⟨"scope", "& mut v8 :: HandleScope"⟩, ⟨"state", "& mut OpState"⟩,
            ⟨"a", "String"⟩, ⟨"b", "& [u8]"⟩], ""⟩).argc = 2 := by
  constructor
  · cases ha : Op.is_async s <;>
      simp only [Op.gen, ha, if_true, if_false, Bool.false_eq_true] <;>
      simp [codegen_v8_sync_argc, codegen_v8_async_argc]
  · decide

/-- C3: when the optimizer bails out with `MustBeSingleSegment` or with
`FastUnsupportedParamType`, fast compatibility is cleared, so the
assembled descriptor carries no fast entry point (`fast_fn = none`)
while its generic entry point is exactly the generated sync/async body
(with no fallible fast call in the sync case). -/
theorem C3_bailout_clears_fast_fn (attrs : Attributes) (s : OpSig)
    (h : (analyze s.inputs s.output).2 = some .MustBeSingleSegment ∨
      (analyze s.inputs s.output).2 = some .FastUnsupportedParamType) :
    (Op.gen attrs s).fast_fn = none ∧
    (Op.gen attrs s).v8_fn_ptr =
      (if Op.is_async s then
        (codegen_v8_async attrs.is_v8 s.asyncness attrs.deferred s.inputs
          s.output).1
       else (codegen_v8_sync attrs.is_v8 false s.inputs s.output).1) := by
  rcases h with h | h <;>
    cases ha : Op.is_async s <;>
    simp [Op.gen, h, ha, fast_call_generate]

theorem C3_bailout_clears_fast_fn_witness :
    (Op.gen ⟨false, false, false, false, false⟩
        ⟨"op_q", false, [⟨"a", "std :: string :: String"⟩], ""⟩).fast_fn =
      none ∧
    (Op.gen ⟨false, false, false, false, false⟩
        ⟨"op_q", false, [⟨"a", "std :: string :: String"⟩], ""⟩).v8_fn_ptr =
      (if Op.is_async ⟨"op_q", false, [⟨"a", "std :: string :: String"⟩], ""⟩
       then
        (codegen_v8_async false false false
          [⟨"a", "std :: string :: String"⟩] "").1
       else (codegen_v8_sync false false
          [⟨"a", "std :: string :: String"⟩] "").1) :=
  C3_bailout_clears_fast_fn ⟨false, false, false, false, false⟩
    ⟨"op_q", false, [⟨"a", "std :: string :: String"⟩], ""⟩
    (Or.inl (by decide))

theorem codegen_arg_u8_slice (serde : V8Value → Except String String)
    (pat : String) (hpat : pat ≠ "_") (idx : Nat) (args : Nat → V8Value) :
    codegen_arg serde ⟨pat, "& [u8]"⟩ idx args =
      (codegen_u8_slice idx (args idx)).map .bytesArg := by
  unfold codegen_arg
  dsimp only
  rw [if_neg (by decide), if_neg hpat]
  rfl

/-- C4 counterexample: at the concrete non-buffer argument `undefined`
the generic path for a `& [u8]` parameter fails with the message
`Expected ArrayBufferView at position 0`, which is not the message
`expected buffer-like value at position 0` stated by the claim. -/
theorem C4_message_counterexample :
    codegen_arg (fun _ => .ok "") ⟨"buf", "& [u8]"⟩ 0 (fun _ => .vundef) =
      .error "Expected ArrayBufferView at position 0" ∧
    "Expected ArrayBufferView at position 0" ≠
      "expected buffer-like value at position 0" := ⟨by decide, by decide⟩

/-- C4 (amended): for every immutable byte-slice parameter marshaled on
the generic path, a plain buffer of byte length L yields a view over
the whole region of exactly length L; a typed/offset view with byte
offset O and byte length Len yields the region starting at O of
exactly length Len; an argument matching neither buffer shape makes the
call fail with `Expected ArrayBufferView at position N` (N the
argument position) and the native function is not invoked. -/
theorem C4_u8_slice_marshal (idx : Nat) (pat : String) (hpat : pat ≠ "_")
    (serde : V8Value → Except String String) (args : Nat → V8Value) :
    (∀ L d, args idx = .vbuf ⟨L, some d⟩ → d.length = L →
      codegen_arg serde ⟨pat, "& [u8]"⟩ idx args = .ok (.bytesArg d)) ∧
    (∀ k O Len bl d, args idx = .vview ⟨k, O, Len, some ⟨bl, some d⟩⟩ →
      O + Len ≤ d.length →
      codegen_arg serde ⟨pat, "& [u8]"⟩ idx args =
        .ok (.bytesArg ((d.drop O).take Len)) ∧
      ((d.drop O).take Len).length = Len) ∧
    (∀ v, args idx = v → (∀ b, v ≠ V8Value.vbuf b) →
      (∀ w, v ≠ V8Value.vview w) →
      codegen_arg serde ⟨pat, "& [u8]"⟩ idx args =
        .error ("Expected ArrayBufferView at position " ++ toString idx)) ∧
    (∀ msg toV8 ctx call,
      codegen_arg serde ⟨"buf", "& [u8]"⟩ 0 args = .error msg →
      v8_func_sync false false [⟨"buf", "& [u8]"⟩] "" serde toV8 ctx call
          args =
        ⟨some (.typeError msg), none, none, none, false, false,
          ctx.state.last_fast_op_error⟩) := by
  refine ⟨?_, ?_, ?_, ?_⟩
  · intro L d hv hL
    rw [codegen_arg_u8_slice serde pat hpat idx args, hv]
    subst hL
    simp [codegen_u8_slice, Except.map]
  · intro k O Len bl d hv hO
    rw [codegen_arg_u8_slice serde pat hpat idx args, hv]
    refine ⟨rfl, ?_⟩
    rw [List.length_take, List.length_drop]
    omega
  · intro v hv hnb hnw
    rw [codegen_arg_u8_slice serde pat hpat idx args, hv]
    cases v with
    | vbuf b => exact absurd rfl (hnb b)
    | vview w => exact absurd rfl (hnw w)
    | vstr s => rfl
    | vint n => rfl
    | vundef => rfl
  · intro msg toV8 ctx call hmsg
    have h0 : codegen_arg serde ⟨"buf", "& [u8]"⟩ (0 + 0) args =
        .error msg := hmsg
    simp only [v8_func_sync, v8_func_sync_main, marshalList, mapWhileSome,
      sync_special, scope_arg, opstate_arg]
    simp [h0]

theorem C4_u8_slice_marshal_witness :
    codegen_arg (fun _ => .ok "") ⟨"buf", "& [u8]"⟩ 0
        (fun _ => .vbuf ⟨3, some [1, 2, 3]⟩) = .ok (.bytesArg [1, 2, 3]) :=
  (C4_u8_slice_marshal 0 "buf" (by decide) (fun _ => .ok "")
      (fun _ => .vbuf ⟨3, some [1, 2, 3]⟩)).1 3 [1, 2, 3] rfl (by decide)

/-- C5: for every sync op returning a fallible wrapper, the generated
return step for the unit/no-value payload shape encodes nothing on
success and throws the exception built via the error-classification
hook on failure; for the small-unsigned/resource-handle shape it
encodes the value with the direct uint32 fast encode on success and
throws on failure. -/
theorem C5_sync_result_ret (output : String)
    (toV8 : String → Except String String) (getCls : String → String)
    (n : Nat) (err : String) :
    (is_result output = true → is_unit_result output = true →
      is_u32_rv output = false →
      codegen_sync_ret output toV8 getCls (.resultVal (.ok .pUnit)) =
          ⟨none, none, none⟩ ∧
        codegen_sync_ret output toV8 getCls (.resultVal (.error err)) =
          ⟨none, none, some (.exceptionThrown (getCls err) err)⟩) ∧
    (is_result output = true → is_u32_rv_result output = true →
      is_unit_result output = false → is_u32_rv output = false →
      codegen_sync_ret output toV8 getCls (.resultVal (.ok (.pNum n))) =
          ⟨some n, none, none⟩ ∧
        codegen_sync_ret output toV8 getCls (.resultVal (.error err)) =
          ⟨none, none, some (.exceptionThrown (getCls err) err)⟩) := by
  constructor
  · intro hres hunit hu32
    have hv := is_void_eq_false_of_is_result hres
    constructor <;>
      simp [codegen_sync_ret, sync_ok_block, hv, hu32, hres, hunit]
  · intro hres hu32r hunit hu32
    have hv := is_void_eq_false_of_is_result hres
    constructor <;>
      simp [codegen_sync_ret, sync_ok_block, hv, hu32, hres, hunit, hu32r,
        RetPayload.asU32]

theorem C5_sync_result_ret_witness :
    (codegen_sync_ret "-> Result < () , AnyError >" (fun g => .ok g)
        (fun _ => "TypeErr") (.resultVal (.ok .pUnit)) = ⟨none, none, none⟩ ∧
      codegen_sync_ret "-> Result < () , AnyError >" (fun g => .ok g)
        (fun _ => "TypeErr") (.resultVal (.error "e1")) =
          ⟨none, none, some (.exceptionThrown "TypeErr" "e1")⟩) ∧
    (codegen_sync_ret "-> Result < u32 , AnyError >" (fun g => .ok g)
        (fun _ => "TypeErr") (.resultVal (.ok (.pNum 9))) =
          ⟨some 9, none, none⟩ ∧
      codegen_sync_ret "-> Result < u32 , AnyError >" (fun g => .ok g)
        (fun _ => "TypeErr") (.resultVal (.error "e1")) =
          ⟨none, none, some (.exceptionThrown "TypeErr" "e1")⟩) :=
  ⟨(C5_sync_result_ret "-> Result < () , AnyError >" (fun g => .ok g)
      (fun _ => "TypeErr") 9 "e1").1 (by decide) (by decide) (by decide),
    (C5_sync_result_ret "-> Result < u32 , AnyError >" (fun g => .ok g)
      (fun _ => "TypeErr") 9 "e1").2 (by decide) (by decide) (by decide)
      (by decide)⟩

theorem asyncTask_fields {an isr : Bool} {gc : String → String} {pid : Int}
    {oid : Nat} {df : Bool} {nc : NativeAsyncCall} {t : QueuedTask}
    (h : asyncTask an isr gc pid oid df nc = some t) :
    t.promiseId = pid ∧ t.opId = oid := by
  cases nc with
  | asyncResFn fut =>
    simp only [asyncTask] at h
    split_ifs at h
    injection h with h; subst h; exact ⟨rfl, rfl⟩
  | asyncPlainFn v =>
    simp only [asyncTask] at h
    split_ifs at h
    injection h with h; subst h; exact ⟨rfl, rfl⟩
  | plainFutFn v =>
    simp only [asyncTask] at h
    split_ifs at h
    injection h with h; subst h; exact ⟨rfl, rfl⟩
  | resFutFn r =>
    rcases r with fut | e <;> simp only [asyncTask] at h <;> split_ifs at h <;>
      (injection h with h; subst h; exact ⟨rfl, rfl⟩)

/-- C6: for every async op whose native function is a non-async fn
returning a fallible wrapper around a future, an early error
short-circuits without awaiting any future and queues an immediate
failed result tagged with the call's promise id and op id; and for
every async op, any queued completion triple carries exactly that
call's promise id and op id. -/
theorem C6_async_completion_triple (is_v8 deferred : Bool)
    (inputs : List FnArg) (output : String)
    (serde : V8Value → Except String String) (ctx : OpCtx)
    (call : List SpecialBinding → List DecodedArg → NativeAsyncCall)
    (args : Nat → V8Value) (pid : Int) (hpid : args 0 = .vint pid) :
    (∀ (asyncness : Bool) (t : QueuedTask),
      (v8_func_async is_v8 asyncness deferred inputs output serde ctx call
          args).queued = some t →
      t.promiseId = pid ∧ t.opId = ctx.id) ∧
    (∀ decoded e,
      marshalList serde args 1
          (inputs.drop (mapWhileSome (async_special is_v8) inputs).length)
          0 = .ok decoded →
      call (mapWhileSome (async_special is_v8) inputs) decoded =
        .resFutFn (.error e) →
      is_result output = true →
      (v8_func_async is_v8 false deferred inputs output serde ctx call
          args).queued =
        some ⟨pid, ctx.id, .opErrorRes (ctx.state.get_error_class_fn e) e,
          false, deferred⟩) := by
  constructor
  · intro an t ht
    simp only [v8_func_async, hpid] at ht
    rcases hm : marshalList serde args 1
        (inputs.drop (mapWhileSome (async_special is_v8) inputs).length) 0
      with msg | decoded
    · rw [hm] at ht; simp at ht
    · rw [hm] at ht
      exact asyncTask_fields ht
  · intro decoded e hm hc hres
    simp only [v8_func_async, hpid, hm, hc, hres]
    simp [asyncTask, to_op_result]

theorem C6_async_completion_triple_witness :
    (v8_func_async false false false []
        "-> Result < impl Future < Output = Result < () , AnyError > > , AnyError >"
        (fun _ => .ok "") ⟨7, ⟨none, fun _ => "Error"⟩⟩
        (fun _ _ => .resFutFn (.error "bad")) (fun _ => .vint 42)).queued =
      some ⟨42, 7, .opErrorRes "Error" "bad", false, false⟩ :=
  (C6_async_completion_triple false false []
      "-> Result < impl Future < Output = Result < () , AnyError > > , AnyError >"
      (fun _ => .ok "") ⟨7, ⟨none, fun _ => "Error"⟩⟩
      (fun _ _ => .resFutFn (.error "bad")) (fun _ => .vint 42) 42 rfl).2
    [] "bad" rfl rfl (by decide)

/-- C7: for every async op, the generated generic entry point reads
argument position 0 as the promise id; if that value is not an
integer, the call throws a type error whose message begins
`invalid promise id` and returns before decoding the remaining
arguments, before tracking, and before invoking or queueing the native
function. -/
theorem C7_invalid_promise_id (is_v8 asyncness deferred : Bool)
    (inputs : List FnArg) (output : String)
    (serde : V8Value → Except String String) (ctx : OpCtx)
    (call : List SpecialBinding → List DecodedArg → NativeAsyncCall)
    (args : Nat → V8Value) (h : ∀ n : Int, args 0 ≠ .vint n) :
    v8_func_async is_v8 asyncness deferred inputs output serde ctx call
        args =
      ⟨some ("invalid promise id: " ++ v8DataErrText), none, false, none⟩ ∧
    startsTok ("invalid promise id: " ++ v8DataErrText)
      "invalid promise id" = true := by
  constructor
  · unfold v8_func_async
    cases hv : args 0 with
    | vstr s => rfl
    | vint n => exact absurd hv (h n)
    | vbuf b => rfl
    | vview w => rfl
    | vundef => rfl
  · decide

theorem C7_invalid_promise_id_witness :
    (v8_func_async false true false [] "" (fun _ => .ok "")
        ⟨1, ⟨none, fun _ => "Error"⟩⟩ (fun _ _ => .asyncResFn (.ok ""))
        (fun _ => .vundef) =
      ⟨some ("invalid promise id: " ++ v8DataErrText), none, false, none⟩) ∧
    startsTok ("invalid promise id: " ++ v8DataErrText)
      "invalid promise id" = true :=
  C7_invalid_promise_id false true false [] "" (fun _ => .ok "")
    ⟨1, ⟨none, fun _ => "Error"⟩⟩ (fun _ _ => .asyncResFn (.ok ""))
    (fun _ => .vundef) (fun n hn => by cases hn)

theorem codegen_arg_special_shape_serde
    (serde : V8Value → Except String String) (args : Nat → V8Value)
    (idx : Nat) (pat ty : String) (hpat : pat ≠ "_")
    (hty : ty = "& mut OpState" ∨ ty = "Rc < RefCell < OpState > >" ∨
      ty = "& mut v8 :: HandleScope") :
    codegen_arg serde ⟨pat, ty⟩ idx args =
      (match serde (args idx) with
       | .ok v => .ok (.serdeArg v)
       | .error err =>
         .error ("Error parsing args at position " ++ toString idx ++ ": " ++
           err)) := by
  rcases hty with h | h | h <;> subst h <;>
    (unfold codegen_arg; dsimp only; rw [if_neg (by decide), if_neg hpat];
      rfl)

/-- C8: special-argument detection consumes only a contiguous leading
run of parameters (the `map_while` scans of the sync and async paths
stop at the first non-special parameter, and their predicates agree
pointwise); a special-argument-shaped parameter declared after any
regular parameter is counted in argc and is among the parameters
marshaled by `codegen_arg`, where the canonical special shapes fall
through to the regular generic serde decode. -/
theorem C8_contiguous_special_run :
    (∀ (is_v8 : Bool) (inputs : List FnArg),
      (mapWhileSome (sync_special is_v8) inputs).length =
        (inputs.takeWhile fun a => (sync_special is_v8 a).isSome).length ∧
      (mapWhileSome (async_special is_v8) inputs).length =
        (inputs.takeWhile fun a => (async_special is_v8 a).isSome).length) ∧
    (∀ (is_v8 : Bool) (a : FnArg),
      (async_special is_v8 a).isSome = (sync_special is_v8 a).isSome) ∧
    (∀ (is_v8 hffc : Bool) (output : String) (pre post : List FnArg)
      (reg : FnArg), (sync_special is_v8 reg).isSome = false →
      (mapWhileSome (sync_special is_v8) (pre ++ reg :: post)).length ≤
          pre.length ∧
      post.length + 1 ≤
        (codegen_v8_sync is_v8 hffc (pre ++ reg :: post) output).2 ∧
      (pre ++ reg :: post).drop
          (mapWhileSome (sync_special is_v8) (pre ++ reg :: post)).length =
        pre.drop
            (mapWhileSome (sync_special is_v8)
              (pre ++ reg :: post)).length ++
          reg :: post) ∧
    (∀ (serde : V8Value → Except String String) (args : Nat → V8Value)
      (idx : Nat) (pat ty : String), pat ≠ "_" →
      (ty = "& mut OpState" ∨ ty = "Rc < RefCell < OpState > >" ∨
        ty = "& mut v8 :: HandleScope") →
      codegen_arg serde ⟨pat, ty⟩ idx args =
        (match serde (args idx) with
         | .ok v => .ok (.serdeArg v)
         | .error err =>
           .error ("Error parsing args at position " ++ toString idx ++
             ": " ++ err))) := by
  refine ⟨?_, ?_, ?_, ?_⟩
  · intro is_v8 inputs
    exact ⟨mapWhileSome_length _ _, mapWhileSome_length _ _⟩
  · intro is_v8 a
    rw [async_special_isSome, sync_special_isSome]
  · intro is_v8 hffc output pre post reg hreg
    have hlen : (mapWhileSome (sync_special is_v8)
        (pre ++ reg :: post)).length ≤ pre.length := by
      rw [mapWhileSome_length]
      exact takeWhile_append_cons_le reg hreg pre post
    refine ⟨hlen, ?_, List.drop_append_of_le_length hlen⟩
    have hl : (pre ++ reg :: post).length =
        pre.length + (post.length + 1) := by
      simp [List.length_append]
    simp only [codegen_v8_sync]
    rw [List.length_drop, hl]
    omega
  · intro serde args idx pat ty hpat hty
    exact codegen_arg_special_shape_serde serde args idx pat ty hpat hty

theorem C8_contiguous_special_run_witness :
    ((mapWhileSome (sync_special true)
        [⟨"a", "u32"⟩, ⟨"state", "& mut OpState"⟩]).length ≤ 0 ∧
      1 + 1 ≤ (codegen_v8_sync true false
        [⟨"a", "u32"⟩, ⟨"state", "& mut OpState"⟩] "").2 ∧
      ([⟨"a", "u32"⟩, ⟨"state", "& mut OpState"⟩] : List FnArg).drop
          (mapWhileSome (sync_special true)
            [⟨"a", "u32"⟩, ⟨"state", "& mut OpState"⟩]).length =
        ([] : List FnArg).drop
            (mapWhileSome (sync_special true)
              [⟨"a", "u32"⟩, ⟨"state", "& mut OpState"⟩]).length ++
          ⟨"a", "u32"⟩ :: [⟨"state", "& mut OpState"⟩]) ∧
    codegen_arg (fun _ => .ok "w") ⟨"state", "& mut OpState"⟩ 1
        (fun _ => .vundef) =
      (match (fun (_ : V8Value) => Except.ok (ε := String) "w") (.vundef) with
       | .ok v => .ok (.serdeArg v)
       | .error err =>
         .error ("Error parsing args at position " ++ toString 1 ++
           ": " ++ err)) :=
  ⟨C8_contiguous_special_run.2.2.1 true false "" [] [⟨"state", "& mut OpState"⟩]
      ⟨"a", "u32"⟩ (by decide),
    C8_contiguous_special_run.2.2.2 (fun _ => .ok "w") (fun _ => .vundef) 1
      "state" "& mut OpState" (by decide) (Or.inl rfl)⟩

theorem codegen_arg_option_string (serde : V8Value → Except String String)
    (pat : String) (hpat : pat ≠ "_") (idx : Nat) (args : Nat → V8Value) :
    codegen_arg serde ⟨pat, "Option < String >"⟩ idx args =
      .ok (.optStrArg
        (match args idx with | .vstr s => some s | _ => none)) := by
  unfold codegen_arg
  dsimp only
  rw [if_neg (by decide), if_neg hpat]
  rfl

/-- C9: for every `Option<String>` parameter marshaled on the generic
path, a non-string argument never produces an error: it decodes to
`none` (silently, with no `Expected string at position N` error), a
string argument decodes to `some` of its content, and the call always
proceeds to invoke the native function. -/
theorem C9_option_string_silent (serde : V8Value → Except String String)
    (args : Nat → V8Value) (idx : Nat) (pat : String) (hpat : pat ≠ "_") :
    (∀ s, args idx = .vstr s →
      codegen_arg serde ⟨pat, "Option < String >"⟩ idx args =
        .ok (.optStrArg (some s))) ∧
    (∀ v, args idx = v → (∀ s, v ≠ V8Value.vstr s) →
      codegen_arg serde ⟨pat, "Option < String >"⟩ idx args =
        .ok (.optStrArg none)) ∧
    (∀ (is_v8 : Bool) (toV8 : String → Except String String) (ctx : OpCtx)
      (call : List SpecialBinding → List DecodedArg → RetVal),
      (v8_func_sync is_v8 false [⟨"maybe", "Option < String >"⟩] "" serde
          toV8 ctx call args).nativeCalled = true) := by
  refine ⟨?_, ?_, ?_⟩
  · intro s hv
    rw [codegen_arg_option_string serde pat hpat idx args, hv]
  · intro v hv hns
    rw [codegen_arg_option_string serde pat hpat idx args, hv]
    cases v with
    | vstr s => exact absurd rfl (hns s)
    | vint n => rfl
    | vbuf b => rfl
    | vview w => rfl
    | vundef => rfl
  · intro is_v8 toV8 ctx call
    cases is_v8 <;> rfl

theorem C9_option_string_silent_witness :
    codegen_arg (fun _ => .ok "") ⟨"maybe", "Option < String >"⟩ 0
        (fun _ => .vint 5) = .ok (.optStrArg none) :=
  (C9_option_string_silent (fun _ => .ok "") (fun _ => .vint 5) 0 "maybe"
      (by decide)).2.1 (.vint 5) rfl (fun s hs => by cases hs)

/-- C10: for every async op declaring an exclusive `&mut OpState`
handle among its leading special arguments, the emitted
special-argument bindings contain a `compile_error!` stating that
mutable opstate is not supported in async ops, so the combination can
never produce a working binding. -/
theorem C10_async_mut_opstate_compile_error (is_v8 : Bool)
    (inputs : List FnArg) (a : FnArg)
    (ha : a ∈ inputs.takeWhile fun x => (async_special is_v8 x).isSome)
    (hmut : is_mut_ref_opstate a = true) :
    SpecialBinding.compileErrorBinding
        "mutable opstate is not supported in async ops" ∈
      mapWhileSome (async_special is_v8) inputs := by
  have hrc := mut_ref_not_rc hmut
  have hhs := mut_ref_not_handle_scope hmut
  have hbind : async_special is_v8 a =
      some (.compileErrorBinding
        "mutable opstate is not supported in async ops") := by
    cases is_v8 <;>
      simp [async_special, scope_arg, rc_refcell_opstate_arg, hrc, hhs, hmut]
  rw [mapWhileSome_eq_filterMap]
  exact List.mem_filterMap.mpr ⟨a, ha, hbind⟩

theorem C10_async_mut_opstate_compile_error_witness :
    SpecialBinding.compileErrorBinding
        "mutable opstate is not supported in async ops" ∈
      mapWhileSome (async_special false) [⟨"state", "& mut OpState"⟩] :=
  C10_async_mut_opstate_compile_error false [⟨"state", "& mut OpState"⟩]
    ⟨"state", "& mut OpState"⟩ (by decide) (by decide)

end DenoOps
